import Mathlib

/-!
Verification of the libaxidma userspace AXI DMA driver library.

The development shallowly embeds the two classes of the library:

* `DMACtrl` (src/dmactrl.cpp): the AXI DMA controller driver.  Machine
  integers are modelled as `Nat` with explicit reduction modulo `2^32`
  (`u32`, `add32`, `sub32`) exactly where the C code performs 32-bit
  unsigned arithmetic, and modulo `2^8` / `2^16` where the code narrows
  to `uint8_t` / `uint16_t`.  The memory-mapped register window and the
  descriptor array are word-addressed maps `Nat → Nat` (the code accesses
  both only through 32-bit word accesses at `offset >> 2`).  Reads of the
  hardware-owned DMASR register are taken from an oracle `env : Nat → Nat`
  indexed by the number of DMASR reads performed so far, so consecutive
  volatile reads may observe different hardware states.  The polling
  loops are embedded with explicit fuel; `Res.nofuel` marks exhaustion,
  `Res.err` a thrown `runtime_error`, and `Res.done b st w p` a return of
  `b` with final driver state `st`, accumulated wait counter `w` and next
  oracle read position `p`.

* `DMABuffer` (src/dmabuffer.cpp): the contiguous DMA buffer.  Filesystem
  and mmap outcomes are supplied by a `BufEnv` record; `dmabufClose`
  additionally reports the list of release actions it performs so that
  resource-release claims can be stated.
-/

/-- The constant 2^32, the modulus of the C `unsigned int` / `uint32_t` arithmetic. -/
def U32 : Nat := 4294967296

/-- Reduction of a natural number to a 32-bit unsigned value. -/
def u32 (x : Nat) : Nat := x % U32

/-- Addition modulo 2^32 (32-bit unsigned addition). -/
def add32 (a b : Nat) : Nat := (a + b) % U32

/-- Subtraction modulo 2^32 (32-bit unsigned two's complement wraparound). -/
def sub32 (a b : Nat) : Nat := (a % U32 + (U32 - b % U32)) % U32

/-- Bitwise 32-bit complement, as applied by `DMACtrl::isRunning`. -/
def not32 (x : Nat) : Nat := (U32 - 1) - x % U32

/-- Block descriptor register offsets and sizes (include/dmactrl.h). -/
def NXTDESC : Nat := 0x00

/-- Offset of the BUFFER_ADDRESS field inside a block descriptor. -/
def BUFFER_ADDRESS : Nat := 0x08

/-- Offset of the CONTROL field inside a block descriptor. -/
def CONTROL : Nat := 0x18

/-- Offset of the STATUS field inside a block descriptor. -/
def STATUS : Nat := 0x1C

/-- Size in bytes of one block descriptor. -/
def DESC_SIZE : Nat := 64

/-- DMA channels (enum DMACtrl::Channel). -/
inductive Channel where
  | MM2S
  | S2MM
  | UNKNOWN
  deriving DecidableEq, Repr

/-- Names of the AXI DMA registers appearing in the per-channel offset maps. -/
inductive RegName where
  | DMACR
  | DMASR
  | CURDESC
  | TAILDESC
  | START_ADDRESS
  | DESTINATION_ADDRESS
  | LENGTH
  deriving DecidableEq, Repr

/-- The per-channel register offset tables `mm2sRegs` / `s2mmRegs`.
A name absent from the selected `std::map` yields the default-inserted
value `0` (`std::map::operator[]`), as does the empty map selected while
the channel is `UNKNOWN`. -/
def regOffset : Channel → RegName → Nat
  | Channel.MM2S, RegName.DMACR => 0x00
  | Channel.MM2S, RegName.DMASR => 0x04
  | Channel.MM2S, RegName.CURDESC => 0x08
  | Channel.MM2S, RegName.TAILDESC => 0x10
  | Channel.MM2S, RegName.START_ADDRESS => 0x18
  | Channel.MM2S, RegName.LENGTH => 0x28
  | Channel.MM2S, RegName.DESTINATION_ADDRESS => 0
  | Channel.S2MM, RegName.DMACR => 0x30
  | Channel.S2MM, RegName.DMASR => 0x34
  | Channel.S2MM, RegName.CURDESC => 0x38
  | Channel.S2MM, RegName.TAILDESC => 0x40
  | Channel.S2MM, RegName.DESTINATION_ADDRESS => 0x48
  | Channel.S2MM, RegName.LENGTH => 0x58
  | Channel.S2MM, RegName.START_ADDRESS => 0
  | Channel.UNKNOWN, _ => 0

/-- The driver state of `class DMACtrl`.  `regmem` holds the last values the
CPU wrote into the register window (word-addressed); `bdmem` is the mapped
block-descriptor array (word-addressed).  The scalar members mirror the
`unsigned int` members of the class.  Members that the constructor leaves
uninitialized (`size`, `descaddr`, `targetaddr`, `ndesc`, `blockOffset`,
`blockSize`, `lastIrqThreshold`) are modelled as 0 in `mkDMACtrl`. -/
structure DMACtrl where
  channel : Channel
  regmem : Nat → Nat
  bdmem : Nat → Nat
  size : Nat
  descaddr : Nat
  targetaddr : Nat
  ndesc : Nat
  blockOffset : Nat
  blockSize : Nat
  bdStartIndex : Nat
  bdStopIndex : Nat
  minWait : Nat
  maxWait : Nat
  curWait : Nat
  minLoop : Nat
  maxLoop : Nat
  lastIrqThreshold : Nat
  initsg : Bool
  blockTransfer : Bool
  bufferTransfer : Bool

/-- The state established by the `DMACtrl` constructor: adaptive-polling
defaults `minLoop=5`, `maxLoop=10`, `minWait=100`, `maxWait=10000`,
`curWait=(maxWait-minWait)/2`, cleared descriptor cursors and flags. -/
def mkDMACtrl : DMACtrl :=
  { channel := Channel.UNKNOWN
    regmem := fun _ => 0
    bdmem := fun _ => 0
    size := 0
    descaddr := 0
    targetaddr := 0
    ndesc := 0
    blockOffset := 0
    blockSize := 0
    bdStartIndex := 0
    bdStopIndex := 0
    minWait := 100
    maxWait := 10000
    curWait := (10000 - 100) / 2
    minLoop := 5
    maxLoop := 10
    lastIrqThreshold := 0
    initsg := false
    blockTransfer := false
    bufferTransfer := false }

/-- Method `DMACtrl::setChannel`: selects the channel (and with it the offset table
used by `regOffset`). -/
def setChannel (st : DMACtrl) (ch : Channel) : DMACtrl := { st with channel := ch }

/-- A 32-bit word store into a word-addressed map at byte offset `off`
(`mem[offset>>2] = value`). -/
def wupd (m : Nat → Nat) (off v : Nat) : Nat → Nat :=
  fun w => if w = off / 4 then u32 v else m w

/-- Method `DMACtrl::setMem`: store into the descriptor memory. -/
def setMem (m : Nat → Nat) (off v : Nat) : Nat → Nat := wupd m off v

/-- Method `DMACtrl::getMem`: load from the descriptor memory. -/
def getMem (m : Nat → Nat) (off : Nat) : Nat := m (off / 4)

/-- Bit 1 of DMASR (`status & 0x0002`): idle. -/
def isIdleBit (v : Nat) : Bool := Nat.land v 2 != 0

/-- Bit 3 of DMASR (`status & 0x0008`): scatter-gather engine included. -/
def sgBit (v : Nat) : Bool := Nat.land v 8 != 0

/-- Method `DMACtrl::isRunning` applied to a DMASR value `v` by a driver with
channel `ch`: throws when the channel is not set, and otherwise returns
the C truth value of `~(v & 0x0001)` — the bitwise complement, not a
logical negation, of the halted bit. -/
def isRunningE (ch : Channel) (v : Nat) : Except String Bool :=
  if ch = Channel.UNKNOWN then Except.error "isRunning: DMA channel is not set"
  else Except.ok (not32 (Nat.land v 1) != 0)

/-- Method `DMACtrl::calibrateWaitTime`: multiplicative adjustment of `curWait`
with one-sided clamps. -/
def calibrateWaitTime (st : DMACtrl) (count : Nat) : DMACtrl :=
  if st.maxLoop < count then
    let c := u32 (st.curWait * 2)
    { st with curWait := if st.maxWait < c then st.maxWait else c }
  else if count < st.minLoop then
    let c := st.curWait / 2
    { st with curWait := if c < st.minWait then st.minWait else c }
  else st

/-- The zeroing loop of `DMACtrl::initSGDescriptors`:
`for(i=0; i < DESC_SIZE*ndesc; i++) setMem(bdmem, i, 0)`. -/
def zeroLoop (m : Nat → Nat) : Nat → (Nat → Nat)
  | 0 => m
  | k + 1 => setMem (zeroLoop m k) k 0

/-- The descriptor-writing loop of `DMACtrl::initSGDescriptors`: for each
`i < k` writes NXTDESC, BUFFER_ADDRESS and CONTROL of descriptor `i`. -/
def writeDescs (d t s : Nat) (m : Nat → Nat) : Nat → (Nat → Nat)
  | 0 => m
  | i + 1 =>
    let m1 := writeDescs d t s m i
    let m2 := setMem m1 (NXTDESC + DESC_SIZE * i) (d + NXTDESC + DESC_SIZE * (i + 1))
    let m3 := setMem m2 (BUFFER_ADDRESS + DESC_SIZE * i) (t + s * i)
    setMem m3 (CONTROL + DESC_SIZE * i) s

/-- Method `DMACtrl::initSGDescriptors`: zeroes the descriptor array, writes the
descriptor chain, zero-terminates the last NXTDESC, writes CURDESC with
`descaddr` and marks `initsg`. -/
def initSGDescriptors (st : DMACtrl) : DMACtrl :=
  let m := zeroLoop st.bdmem (DESC_SIZE * st.ndesc)
  let m := writeDescs st.descaddr st.targetaddr st.size m st.ndesc
  let m := setMem m (NXTDESC + DESC_SIZE * (sub32 st.ndesc 1)) 0
  let st1 := { st with bdmem := m }
  let st2 := { st1 with regmem := wupd st1.regmem (regOffset st1.channel RegName.CURDESC) st1.descaddr }
  { st2 with initsg := true }

/-- Method `DMACtrl::initSG(baseaddr, n, blocksize, tgtaddr)`: checks the channel
and the SG-engine-present bit (read from the DMASR oracle at position `p`),
maps the descriptor array (its pre-existing physical memory contents are the
model parameter `m0`), stores the configuration, and runs
`initSGDescriptors`.  `n` arrives through a `uint8_t` parameter. -/
def initSG (st : DMACtrl) (env : Nat → Nat) (p : Nat)
    (baseaddr n blocksize tgtaddr : Nat) (m0 : Nat → Nat) : Except String DMACtrl :=
  if st.channel = Channel.UNKNOWN then Except.error "initSG: DMA channel is not set"
  else if ! sgBit (env p) then
    Except.error "initSG: DMA channel is not configured for Scatter-Gather mode"
  else
    let st1 := { st with bdmem := m0, descaddr := u32 baseaddr, targetaddr := u32 tgtaddr,
                         size := u32 blocksize, ndesc := n % 256 }
    Except.ok (initSGDescriptors st1)

/-- Method `DMACtrl::runSG`: arms the SG engine (DMACR = (ndesc<<16)+0x1011,
TAILDESC = descaddr + DESC_SIZE*(ndesc-1)) and resets descriptor cursors
and transfer flags. -/
def runSG (st : DMACtrl) : Except String DMACtrl :=
  if ! st.initsg then Except.error "runSG: Scatter-Gather is not initialized"
  else
    let r1 := wupd st.regmem (regOffset st.channel RegName.DMACR) (st.ndesc * 65536 + 0x1011)
    let st1 := { st with regmem := r1 }
    let r2 := wupd st1.regmem (regOffset st1.channel RegName.TAILDESC)
      (st1.descaddr + DESC_SIZE * (sub32 st1.ndesc 1))
    let st2 := { st1 with regmem := r2 }
    Except.ok { st2 with blockOffset := 0, blockSize := 0, bdStartIndex := 0, bdStopIndex := 0,
                         lastIrqThreshold := st2.ndesc, blockTransfer := false,
                         bufferTransfer := false }

/-- The loop of `DMACtrl::incSGDescTable`: rewrites the BUFFER_ADDRESS field
of each descriptor `i < k` to `targetaddr + size*(ndesc*desc + i)`. -/
def incLoop (t s n desc : Nat) (m : Nat → Nat) : Nat → (Nat → Nat)
  | 0 => m
  | i + 1 => setMem (incLoop t s n desc m i) (BUFFER_ADDRESS + DESC_SIZE * i)
      (t + s * (n * desc + i))

/-- Method `DMACtrl::incSGDescTable(desc)`: requires `initsg`; advances all
BUFFER_ADDRESS fields by `desc` whole rings.  The ring index arrives through
a `uint8_t` parameter, so the argument is truncated modulo 256 at the call
boundary. -/
def incSGDescTable (st : DMACtrl) (desc : Nat) : Except String DMACtrl :=
  if ! st.initsg then Except.error "incSGDescTable: Scatter-Gather is not initialized"
  else
    let m := incLoop st.targetaddr st.size st.ndesc (desc % 256) st.bdmem st.ndesc
    Except.ok { st with bdmem := m }

/-- Method `DMACtrl::getSGDescBufferAddress(desc)`: requires `initsg`, then reads
the BUFFER_ADDRESS field of descriptor `desc` without any bound check on
`desc`. -/
def getSGDescBufferAddress (st : DMACtrl) (desc : Nat) : Except String Nat :=
  if ! st.initsg then Except.error "getSGDescBufferAddress: Scatter-Gather is not initialized"
  else Except.ok (getMem st.bdmem (BUFFER_ADDRESS + DESC_SIZE * desc))

/-- Result of an embedded `rx`-family call.  `done b st w p` returns `b` with
final driver state `st`, final accumulated `waitTime` counter `w` and next
DMASR oracle position `p`; `err` is a thrown `runtime_error`; `nofuel` marks
exhaustion of the model's fuel before the loop exited. -/
inductive Res where
  | done (b : Bool) (st : DMACtrl) (waitTime : Nat) (p : Nat)
  | err (msg : String)
  | nofuel

/-- The returned boolean of a completed `rx`-family call, if any. -/
def resRet : Res → Option Bool
  | Res.done b _ _ _ => some b
  | _ => none

/-- The final driver state of a completed `rx`-family call
(`mkDMACtrl` as the don't-care value otherwise). -/
def resSt : Res → DMACtrl
  | Res.done _ st _ _ => st
  | _ => mkDMACtrl

/-- The final accumulated wait counter of a completed `rx`-family call. -/
def resWait : Res → Nat
  | Res.done _ _ w _ => w
  | _ => 0

/-- The next oracle read position after a completed `rx`-family call. -/
def resPos : Res → Nat
  | Res.done _ _ _ p => p
  | _ => 0

/-- The polling loop of `DMACtrl::directRx`: each iteration reads DMASR once
(`isIdle()`); on idle it calibrates when `timeout = 0` and reports the whole
buffer (`blockOffset = 0`, `blockSize = size`); otherwise it sleeps `step`
microseconds, accumulates `waitTime` (`uint32_t`) and `nloops` (`uint16_t`),
and repeats while `waitTime < timeout || timeout == 0`. -/
def directRxLoop (env : Nat → Nat) (t step : Nat) : Nat → DMACtrl → Nat → Nat → Nat → Res
  | 0, _, _, _, _ => Res.nofuel
  | fuel + 1, st, nloops, waitTime, p =>
    if st.channel = Channel.UNKNOWN then Res.err "isIdle: DMA channel is not set"
    else if isIdleBit (env p) then
      let st1 := if t = 0 then calibrateWaitTime st nloops else st
      Res.done true { st1 with blockOffset := 0, blockSize := st1.size } waitTime (p + 1)
    else
      let waitTime1 := u32 (waitTime + step)
      let nloops1 := (nloops + 1) % 65536
      if waitTime1 < t ∨ t = 0 then directRxLoop env t step fuel st nloops1 waitTime1 (p + 1)
      else Res.done false st waitTime1 (p + 1)

/-- Method `DMACtrl::directRx(timeout)`: rejects SG mode (one DMASR read), a channel
other than S2MM, and a non-running engine (one DMASR read), then polls. -/
def directRx (st : DMACtrl) (env : Nat → Nat) (p t fuel : Nat) : Res :=
  if st.channel = Channel.UNKNOWN then Res.err "isSG: DMA channel is not set"
  else if sgBit (env p) then
    Res.err "directRx: DMA channel is not configured for Direct mode"
  else if st.channel ≠ Channel.S2MM then
    Res.err "directRx: DMA Scatter-Gather channel != S2MM"
  else
    match isRunningE st.channel (env (p + 1)) with
    | Except.error e => Res.err e
    | Except.ok r =>
      if ! r then Res.err "directRx: DMA channel not running"
      else
        let step := if t = 0 then st.curWait else st.minWait
        directRxLoop env t step fuel st 0 0 (p + 2)

/-- The body of the `if (readyBlocks > 0)` block of `DMACtrl::blockRx`:
sets `bdStopIndex = bdStartIndex + readyBlocks - 1`, calibrates when
`timeout = 0`, computes `blockOffset` through `getBufferAddress`
(whose `uint8_t` parameter truncates `bdStartIndex` and which throws when
the index exceeds `ndesc - 1`), sets `blockSize`, advances `bdStartIndex`
when the ring is not exhausted, and returns true. -/
def blockRxFinish (t : Nat) (st : DMACtrl) (readyBlocks nloops waitTime p : Nat) : Res :=
  let st1 := { st with bdStopIndex := sub32 (add32 st.bdStartIndex readyBlocks) 1 }
  let st2 := if t = 0 then calibrateWaitTime st1 nloops else st1
  let d := st2.bdStartIndex % 256
  if sub32 st2.ndesc 1 < d then Res.err "getBufferAddress: descriptor is out of bound"
  else
    let ba := getMem st2.bdmem (BUFFER_ADDRESS + DESC_SIZE * d)
    let st3 := { st2 with blockOffset := sub32 ba st2.targetaddr,
                          blockSize := u32 (st2.size * (add32 (sub32 st2.bdStopIndex st2.bdStartIndex) 1)) }
    let st4 := if st3.bdStopIndex < sub32 st3.ndesc 1 then
                 { st3 with bdStartIndex := add32 st3.bdStopIndex 1 }
               else st3
    Res.done true st4 waitTime (p + 2)

/-- The polling loop of `DMACtrl::blockRx`.  Each iteration reads DMASR
twice (`status = getRegister(...)`, then `isIdle()`).  On idle it reports
the remaining ring (`bdStopIndex = ndesc-1`), reloads `lastIrqThreshold`
and clears `blockTransfer`; otherwise a decrease of the IRQ-threshold-status
byte below `lastIrqThreshold` yields `readyBlocks = ndesc - irqT -
bdStartIndex` (`unsigned int` arithmetic narrowed to the `uint8_t`
`readyBlocks`).  A positive `readyBlocks` completes through
`blockRxFinish`; otherwise the iteration sleeps and repeats while
`waitTime < timeout || timeout == 0`. -/
def blockRxLoop (env : Nat → Nat) (t step : Nat) : Nat → DMACtrl → Nat → Nat → Nat → Res
  | 0, _, _, _, _ => Res.nofuel
  | fuel + 1, st, nloops, waitTime, p =>
    let status := env p
    if st.channel = Channel.UNKNOWN then Res.err "isIdle: DMA channel is not set"
    else
      let step1 :=
        if isIdleBit (env (p + 1)) then
          let sa := { st with bdStopIndex := sub32 st.ndesc 1 }
          let rb := add32 (sub32 sa.bdStopIndex sa.bdStartIndex) 1 % 256
          ({ sa with lastIrqThreshold := sa.ndesc, blockTransfer := false }, rb)
        else
          let irqT := Nat.land status 16711680 / 65536
          if irqT < st.lastIrqThreshold then
            let rb := sub32 (sub32 st.ndesc irqT) st.bdStartIndex % 256
            ({ st with lastIrqThreshold := irqT }, rb)
          else (st, 0)
      if 0 < step1.2 then blockRxFinish t step1.1 step1.2 nloops waitTime p
      else
        let waitTime1 := u32 (waitTime + step)
        let nloops1 := (nloops + 1) % 65536
        if waitTime1 < t ∨ t = 0 then blockRxLoop env t step fuel step1.1 nloops1 waitTime1 (p + 2)
        else Res.done false step1.1 waitTime1 (p + 2)

/-- Method `DMACtrl::blockRx(timeout)`: requires `initsg` and channel S2MM, checks
`isRunning()` (one DMASR read), chooses the polling step, raises
`blockTransfer` and polls. -/
def blockRx (st : DMACtrl) (env : Nat → Nat) (p t fuel : Nat) : Res :=
  if ! st.initsg then Res.err "blockRx: Scatter-Gather is not initialized"
  else if st.channel ≠ Channel.S2MM then
    Res.err "blockRx: DMA Scatter-Gather channel != S2MM"
  else
    match isRunningE st.channel (env p) with
    | Except.error e => Res.err e
    | Except.ok r =>
      if ! r then Res.err "blockRx: DMA channel is not running"
      else
        let step := if t = 0 then st.curWait else st.minWait
        blockRxLoop env t step fuel { st with blockTransfer := true } 0 0 (p + 1)

/-- The polling loop of `DMACtrl::bufferRx`: one DMASR read per iteration
(`isIdle()`); on idle it calibrates when `timeout = 0`, reports the whole
ring (`blockOffset = 0`, `blockSize = size * ndesc`) and clears
`bufferTransfer`; otherwise it sleeps and repeats while
`waitTime < timeout || timeout == 0`. -/
def bufferRxLoop (env : Nat → Nat) (t step : Nat) : Nat → DMACtrl → Nat → Nat → Nat → Res
  | 0, _, _, _, _ => Res.nofuel
  | fuel + 1, st, nloops, waitTime, p =>
    if st.channel = Channel.UNKNOWN then Res.err "isIdle: DMA channel is not set"
    else if isIdleBit (env p) then
      let st1 := if t = 0 then calibrateWaitTime st nloops else st
      Res.done true { st1 with blockOffset := 0, blockSize := u32 (st1.size * st1.ndesc),
                               bufferTransfer := false } waitTime (p + 1)
    else
      let waitTime1 := u32 (waitTime + step)
      let nloops1 := (nloops + 1) % 65536
      if waitTime1 < t ∨ t = 0 then bufferRxLoop env t step fuel st nloops1 waitTime1 (p + 1)
      else Res.done false st waitTime1 (p + 1)

/-- Method `DMACtrl::bufferRx(timeout)`: requires `initsg` and channel S2MM, checks
`isRunning()` (one DMASR read), raises `bufferTransfer` and polls. -/
def bufferRx (st : DMACtrl) (env : Nat → Nat) (p t fuel : Nat) : Res :=
  if ! st.initsg then Res.err "bufferRx: Scatter-Gather is not initialized"
  else if st.channel ≠ Channel.S2MM then
    Res.err "bufferRx: DMA Scatter-Gather channel != S2MM"
  else
    match isRunningE st.channel (env p) with
    | Except.error e => Res.err e
    | Except.ok r =>
      if ! r then Res.err "bufferRx: DMA channel is not running"
      else
        let step := if t = 0 then st.curWait else st.minWait
        bufferRxLoop env t step fuel { st with bufferTransfer := true } 0 0 (p + 1)

/-- Method `DMACtrl::rx(timeout)`: the receive dispatch.  `isSG()` (one DMASR read,
throwing when the channel is not set) selects direct mode; otherwise an
in-progress block or buffer transfer resumes, and a fresh SG receive picks
`blockRx` exactly when `curWait == maxWait`, else `bufferRx`. -/
def rx (st : DMACtrl) (env : Nat → Nat) (p t fuel : Nat) : Res :=
  if st.channel = Channel.UNKNOWN then Res.err "isSG: DMA channel is not set"
  else if ! sgBit (env p) then directRx st env (p + 1) t fuel
  else if st.blockTransfer then blockRx st env (p + 1) t fuel
  else if st.bufferTransfer then bufferRx st env (p + 1) t fuel
  else if st.curWait = st.maxWait then blockRx st env (p + 1) t fuel
  else bufferRx st env (p + 1) t fuel

/-- Given the SG engine is present, whether `rx`'s decision table selects the
block-granular path (`blockRx`) for state `st`. -/
def sgBlockPath (st : DMACtrl) : Bool :=
  st.blockTransfer || (! st.bufferTransfer && (st.curWait == st.maxWait))

/-- Unwrap an `Except`-valued driver-state computation, with `mkDMACtrl` as
the don't-care value of the error case. -/
def exGetD : Except String DMACtrl → DMACtrl
  | Except.ok st => st
  | Except.error _ => mkDMACtrl

/-- State of `class DMABuffer`.  `buf` models the stored `mmap` result
(`none` standing for `MAP_FAILED`). -/
structure DMABuffer where
  name : String
  sys_class_path : String
  fd : Int
  buf_size : Nat
  phys_addr : Nat
  sync_mode : Nat
  buf : Option Nat

/-- The state established by the `DMABuffer` constructor (`fd = -1`). -/
def mkDMABuffer : DMABuffer :=
  { name := "", sys_class_path := "", fd := -1, buf_size := 0, phys_addr := 0,
    sync_mode := 0, buf := none }

/-- Outcomes of the filesystem and mmap operations performed by
`DMABuffer::open`: whether each sysfs root contains the named subdirectory,
the parsed contents of `phys_addr` and `size` when their files open
(`none` = open failure), the device-node file descriptor (`none` = `::open`
returned -1), and the mmap result (`none` = `MAP_FAILED`). -/
structure BufEnv where
  dir1 : Bool
  dir2 : Bool
  physRead : Option Nat
  sizeRead : Option Nat
  devFd : Option Nat
  mmapRes : Option Nat

/-- Method `DMABuffer::open(bufname, cache_on)`: searches the two sysfs roots (the
loop does not break, so the later match wins), reads `phys_addr` and `size`,
opens the device node, then calls `mmap` and — without examining its result —
stores it, sets `sync_mode = 1` and returns true. -/
def dmabufOpen (st : DMABuffer) (bufname : String) (env : BufEnv) : Bool × DMABuffer :=
  let st0 :=
    if env.dir2 then
      { st with sys_class_path := "/sys/class/udmabuf/" ++ bufname, name := bufname }
    else if env.dir1 then
      { st with sys_class_path := "/sys/class/u-dma-buf/" ++ bufname, name := bufname }
    else st
  if ! (env.dir1 || env.dir2) then (false, st0)
  else
    match env.physRead with
    | none => (false, st0)
    | some pa =>
      let st1 := { st0 with phys_addr := pa }
      match env.sizeRead with
      | none => (false, st1)
      | some sz =>
        let st2 := { st1 with buf_size := sz }
        match env.devFd with
        | none => (false, { st2 with fd := -1 })
        | some f =>
          let st3 := { st2 with fd := (f : Int) }
          (true, { st3 with buf := env.mmapRes, sync_mode := 1 })

/-- Release actions `DMABuffer::close` may perform. -/
inductive BufAction where
  | closeFd (fd : Int)
  | munmapAct
  deriving DecidableEq, Repr

/-- Method `DMABuffer::close`: returns false when no descriptor is open; otherwise
closes the file descriptor, resets `fd` to -1 and returns true.  The third
component lists the release actions performed. -/
def dmabufClose (st : DMABuffer) : Bool × DMABuffer × List BufAction :=
  if st.fd < 0 then (false, st, [])
  else (true, { st with fd := -1 }, [BufAction.closeFd st.fd])

/-- The update-and-range property of `calibrateWaitTime` asserted by claim
C4, restricted to in-range starting values of `curWait`. -/
def C4Prop (st : DMACtrl) (count : Nat) : Prop :=
  (st.maxLoop < count →
    (calibrateWaitTime st count).curWait = min (2 * st.curWait) st.maxWait) ∧
  (count < st.minLoop →
    (calibrateWaitTime st count).curWait = max (st.curWait / 2) st.minWait) ∧
  (st.minLoop ≤ count → count ≤ st.maxLoop →
    (calibrateWaitTime st count).curWait = st.curWait) ∧
  st.minWait ≤ (calibrateWaitTime st count).curWait ∧
  (calibrateWaitTime st count).curWait ≤ st.maxWait

/-- The value of `curWait` after `calibrateWaitTime`, by cases on `count`. -/
theorem calibrate_curWait (st : DMACtrl) (count : Nat) :
    (calibrateWaitTime st count).curWait =
      if st.maxLoop < count then
        (if st.maxWait < u32 (st.curWait * 2) then st.maxWait else u32 (st.curWait * 2))
      else if count < st.minLoop then
        (if st.curWait / 2 < st.minWait then st.minWait else st.curWait / 2)
      else st.curWait := by
  unfold calibrateWaitTime
  by_cases h1 : st.maxLoop < count
  · rw [if_pos h1, if_pos h1]
  · rw [if_neg h1, if_neg h1]
    by_cases h2 : count < st.minLoop
    · rw [if_pos h2, if_pos h2]
    · rw [if_neg h2, if_neg h2]

/-- Lemma: `calibrateWaitTime` modifies at most the `curWait` member. -/
theorem calibrate_shape (st : DMACtrl) (count : Nat) :
    calibrateWaitTime st count = { st with curWait := (calibrateWaitTime st count).curWait } := by
  unfold calibrateWaitTime
  split_ifs <;> rfl

/-- Claim C4 (amended): `calibrateWaitTime(nloops)` doubles `curWait` clamped
to `maxWait` when `nloops > maxLoop`, halves it clamped to `minWait` when
`nloops < minLoop`, and leaves it unchanged otherwise; and for every starting
value of `curWait` that already satisfies `minWait ≤ curWait ≤ maxWait`
(with `minLoop ≤ maxLoop`, `minWait ≤ maxWait` and `2·maxWait < 2^32`),
after any single call `minWait ≤ curWait ≤ maxWait`. -/
theorem C4_calibrateWaitTime (st : DMACtrl) (count : Nat)
    (hml : st.minLoop ≤ st.maxLoop) (hmm : st.minWait ≤ st.maxWait)
    (hlow : st.minWait ≤ st.curWait) (hhigh : st.curWait ≤ st.maxWait)
    (hov : 2 * st.maxWait < U32) : C4Prop st count := by
  have h2 : u32 (st.curWait * 2) = 2 * st.curWait := by
    unfold u32
    rw [Nat.mod_eq_of_lt (by omega)]
    omega
  refine ⟨?_, ?_, ?_, ?_, ?_⟩
  · intro h
    rw [calibrate_curWait, h2, if_pos h]
    split_ifs <;> omega
  · intro h
    have ha : ¬ st.maxLoop < count := by omega
    rw [calibrate_curWait, if_neg ha, if_pos h]
    split_ifs <;> omega
  · intro h h'
    have ha : ¬ st.maxLoop < count := by omega
    have hb : ¬ count < st.minLoop := by omega
    rw [calibrate_curWait, if_neg ha, if_neg hb]
  · rw [calibrate_curWait, h2]
    split_ifs <;> omega
  · rw [calibrate_curWait, h2]
    split_ifs <;> omega

/-- Claim C4, counterexample to the clause quantifying over every starting
`curWait`: with the constructor's parameters (`minLoop=5`, `maxLoop=10`,
`minWait=100`, `maxWait=10000`) and a starting `curWait = 20000`, a call
with `nloops = 7` (inside `[minLoop, maxLoop]`) leaves `curWait = 20000`,
which exceeds `maxWait`. -/
theorem C4_counterexample :
    { mkDMACtrl with curWait := 20000 }.minLoop ≤ 7 ∧
    7 ≤ { mkDMACtrl with curWait := 20000 }.maxLoop ∧
    (calibrateWaitTime { mkDMACtrl with curWait := 20000 } 7).curWait = 20000 ∧
    ¬ (calibrateWaitTime { mkDMACtrl with curWait := 20000 } 7).curWait ≤
        { mkDMACtrl with curWait := 20000 }.maxWait := by
  refine ⟨by decide, by decide, by decide, by decide⟩

/-- Witness instantiating `C4_calibrateWaitTime` at the constructor state
(`curWait = 4950`) with `nloops = 12`. -/
theorem C4_calibrateWaitTime_witness :
    (mkDMACtrl.minLoop ≤ mkDMACtrl.maxLoop ∧ mkDMACtrl.minWait ≤ mkDMACtrl.maxWait ∧
     mkDMACtrl.minWait ≤ mkDMACtrl.curWait ∧ mkDMACtrl.curWait ≤ mkDMACtrl.maxWait ∧
     2 * mkDMACtrl.maxWait < U32) ∧ C4Prop mkDMACtrl 12 :=
  ⟨by refine ⟨by decide, by decide, by decide, by decide, by decide⟩,
   C4_calibrateWaitTime mkDMACtrl 12 (by decide) (by decide) (by decide) (by decide) (by decide)⟩

/-- Claim C5: the code of `DMACtrl::isRunning` returns the truth value of
`~(DMASR & 0x0001)`, a 32-bit complement that is nonzero for every DMASR
value, so `isRunning` answers `true` even when the halted bit (bit 0) is
set — contradicting the claimed decode "running iff the halted bit is
clear".  At the failing input DMASR = 1 the claim requires `false`. -/
theorem C5_isRunning_code_bug :
    (∀ v, isRunningE Channel.S2MM v = Except.ok true) ∧
    isRunningE Channel.S2MM 1 = Except.ok true := by
  have h : ∀ v, isRunningE Channel.S2MM v = Except.ok true := by
    intro v
    have hb : Nat.land v 1 ≤ 1 := Nat.and_le_right
    have hne : not32 (Nat.land v 1) ≠ 0 := by
      unfold not32 U32
      omega
    simp [isRunningE, hne]
  exact ⟨h, h 1⟩

/-- The `BufEnv` in which sysfs discovery, both metadata reads and the
device-node open succeed but `mmap` returns `MAP_FAILED`. -/
def envMmapFail : BufEnv :=
  { dir1 := true, dir2 := false, physRead := some 1879048192,
    sizeRead := some 8388608, devFd := some 3, mmapRes := none }

/-- Claim C6: when every step of `DMABuffer::open` up to the device open
succeeds and the `mmap` fails, the code stores the failed mapping, leaves
the just-opened file descriptor open and still returns true — the mmap
result is never examined, contradicting the claim that `open` returns true
only when the `mmap` succeeded and releases the descriptor on failure. -/
theorem C6_open_code_bug :
    (dmabufOpen mkDMABuffer "udmabuf0" envMmapFail).1 = true ∧
    (dmabufOpen mkDMABuffer "udmabuf0" envMmapFail).2.fd = 3 ∧
    (dmabufOpen mkDMABuffer "udmabuf0" envMmapFail).2.buf = none ∧
    (dmabufOpen mkDMABuffer "udmabuf0" envMmapFail).2.sync_mode = 1 ∧
    envMmapFail.mmapRes = none := by
  refine ⟨rfl, rfl, rfl, rfl, rfl⟩

/-- A state reached by a successful `setChannel(S2MM)` followed by
`initSG(0x10000000, 4, 2048, 0x70000000)` over descriptor memory whose
prior contents are all zero, with the DMASR oracle reporting the
SG-engine-present bit. -/
def stSG4 : DMACtrl :=
  exGetD (initSG (setChannel mkDMACtrl Channel.S2MM) (fun _ => 8) 0
    268435456 4 2048 1879048192 (fun _ => 0))

set_option maxRecDepth 8000 in
/-- Claim C7: `getSGDescBufferAddress` performs no bound check on its
descriptor index.  On an SG-initialized controller with `N = 4`
descriptors, the call with index 5 does not fail with a
descriptor-index-out-of-range error: it returns the word read at byte
offset `0x8 + 64·5 = 0x148`, beyond the `4·64`-byte descriptor array
(out-of-bounds in the real, exactly-`N·64`-byte mapping) — here the
prior contents 0 of the surrounding physical memory. -/
theorem C7_getSGDescBufferAddress_code_bug :
    stSG4.initsg = true ∧ stSG4.ndesc = 4 ∧ ¬ (5 : Nat) < 4 ∧
    getSGDescBufferAddress stSG4 5 = Except.ok 0 := by
  refine ⟨rfl, rfl, by decide, rfl⟩

/-- An open `DMABuffer` (descriptor 3, an active 4 KiB mapping). -/
def stBufOpen : DMABuffer :=
  { mkDMABuffer with fd := 3, buf := some 274877906944, buf_size := 4096 }

/-- Claim C8, counterexample: `DMABuffer::close` on an open buffer performs
exactly one release action — closing the file descriptor — and never calls
`munmap`, so the claim's "unmaps the buffer mapping" clause is false. -/
theorem C8_counterexample :
    (dmabufClose stBufOpen).1 = true ∧
    (dmabufClose stBufOpen).2.2 = [BufAction.closeFd 3] ∧
    ¬ BufAction.munmapAct ∈ (dmabufClose stBufOpen).2.2 := by
  refine ⟨rfl, rfl, by decide⟩

/-- The close behaviour asserted by claim C8 with the unmap clause removed. -/
def C8Prop (st : DMABuffer) : Prop :=
  (st.fd < 0 → dmabufClose st = (false, st, [])) ∧
  (0 ≤ st.fd →
    (dmabufClose st).1 = true ∧
    (dmabufClose st).2.1.fd = -1 ∧
    (dmabufClose st).2.2 = [BufAction.closeFd st.fd] ∧
    ¬ BufAction.munmapAct ∈ (dmabufClose st).2.2 ∧
    (dmabufClose (dmabufClose st).2.1).1 = false)

/-- Claim C8 (amended): `DMABuffer::close()` on an open buffer closes the
device file descriptor — performing no unmap, so the mapping is not
invalidated by the library — and returns true; when the buffer is not open
it returns false; and after a successful close a second close returns
false. -/
theorem C8_close (st : DMABuffer) : C8Prop st := by
  unfold C8Prop dmabufClose
  constructor
  · intro h
    simp [h]
  · intro h
    have h' : ¬ st.fd < 0 := by omega
    simp [h']

/-- Witness instantiating `C8_close` at the open buffer `stBufOpen`
(its conjuncts are implications; both sides are exercised at `fd = 3`). -/
theorem C8_close_witness :
    (0 ≤ stBufOpen.fd) ∧ C8Prop stBufOpen :=
  ⟨by decide, C8_close stBufOpen⟩

/-- Lemma: `u32` is the identity below `2^32`. -/
theorem u32_small {a : Nat} (h : a < U32) : u32 a = a := Nat.mod_eq_of_lt h

/-- Lemma: `add32` agrees with addition when no wraparound occurs. -/
theorem add32_small {a b : Nat} (h : a + b < U32) : add32 a b = a + b := Nat.mod_eq_of_lt h

/-- Lemma: `sub32` agrees with truncated subtraction when no wraparound occurs. -/
theorem sub32_small {a b : Nat} (hb : b ≤ a) (ha : a < U32) : sub32 a b = a - b := by
  simp only [sub32, U32] at ha ⊢
  omega

/-- Reading the descriptor array after the zeroing loop: words covered by the
`k` byte-offset stores are zero, all others keep their prior contents. -/
theorem zeroLoop_read (m : Nat → Nat) :
    ∀ k w, zeroLoop m k w = if 4 * w < k then 0 else m w := by
  intro k
  induction k with
  | zero =>
    intro w
    simp [zeroLoop]
  | succ k ih =>
    intro w
    show setMem (zeroLoop m k) k 0 w = _
    simp only [setMem, wupd]
    by_cases h : w = k / 4
    · rw [if_pos h, if_pos (by omega)]
      simp [u32]
    · rw [if_neg h, ih w]
      by_cases h4 : 4 * w < k
      · rw [if_pos h4, if_pos (by omega)]
      · rw [if_neg h4, if_neg (by omega)]

/-- Reading the NXTDESC word of descriptor `i` after the writing loop. -/
theorem writeDescs_nxt (d t s : Nat) (m : Nat → Nat) :
    ∀ k i, i < k →
      writeDescs d t s m k (16 * i) = u32 (d + NXTDESC + DESC_SIZE * (i + 1)) := by
  intro k
  induction k with
  | zero => intro i hi; omega
  | succ k ih =>
    intro i hi
    show setMem (setMem (setMem (writeDescs d t s m k) (NXTDESC + DESC_SIZE * k)
        (d + NXTDESC + DESC_SIZE * (k + 1))) (BUFFER_ADDRESS + DESC_SIZE * k) (t + s * k))
        (CONTROL + DESC_SIZE * k) s (16 * i) = _
    simp only [setMem, wupd, NXTDESC, BUFFER_ADDRESS, CONTROL, DESC_SIZE]
    by_cases he : i = k
    · subst he
      rw [if_neg (by omega), if_neg (by omega), if_pos (by omega)]
    · rw [if_neg (by omega), if_neg (by omega), if_neg (by omega)]
      have := ih i (by omega)
      simpa [NXTDESC, DESC_SIZE] using this

/-- Reading the BUFFER_ADDRESS word of descriptor `i` after the writing loop. -/
theorem writeDescs_buf (d t s : Nat) (m : Nat → Nat) :
    ∀ k i, i < k → writeDescs d t s m k (16 * i + 2) = u32 (t + s * i) := by
  intro k
  induction k with
  | zero => intro i hi; omega
  | succ k ih =>
    intro i hi
    show setMem (setMem (setMem (writeDescs d t s m k) (NXTDESC + DESC_SIZE * k)
        (d + NXTDESC + DESC_SIZE * (k + 1))) (BUFFER_ADDRESS + DESC_SIZE * k) (t + s * k))
        (CONTROL + DESC_SIZE * k) s (16 * i + 2) = _
    simp only [setMem, wupd, NXTDESC, BUFFER_ADDRESS, CONTROL, DESC_SIZE]
    by_cases he : i = k
    · subst he
      rw [if_neg (by omega), if_pos (by omega)]
    · rw [if_neg (by omega), if_neg (by omega), if_neg (by omega)]
      exact ih i (by omega)

/-- Reading the CONTROL word of descriptor `i` after the writing loop. -/
theorem writeDescs_ctl (d t s : Nat) (m : Nat → Nat) :
    ∀ k i, i < k → writeDescs d t s m k (16 * i + 6) = u32 s := by
  intro k
  induction k with
  | zero => intro i hi; omega
  | succ k ih =>
    intro i hi
    show setMem (setMem (setMem (writeDescs d t s m k) (NXTDESC + DESC_SIZE * k)
        (d + NXTDESC + DESC_SIZE * (k + 1))) (BUFFER_ADDRESS + DESC_SIZE * k) (t + s * k))
        (CONTROL + DESC_SIZE * k) s (16 * i + 6) = _
    simp only [setMem, wupd, NXTDESC, BUFFER_ADDRESS, CONTROL, DESC_SIZE]
    by_cases he : i = k
    · subst he
      rw [if_pos (by omega)]
    · rw [if_neg (by omega), if_neg (by omega), if_neg (by omega)]
      exact ih i (by omega)

/-- Words that are not NXTDESC, BUFFER_ADDRESS or CONTROL words of a written
descriptor are untouched by the writing loop. -/
theorem writeDescs_frame (d t s : Nat) (m : Nat → Nat) :
    ∀ k w, ((w % 16 ≠ 0 ∧ w % 16 ≠ 2 ∧ w % 16 ≠ 6) ∨ 16 * k ≤ w) →
      writeDescs d t s m k w = m w := by
  intro k
  induction k with
  | zero => intro w _; rfl
  | succ k ih =>
    intro w hw
    show setMem (setMem (setMem (writeDescs d t s m k) (NXTDESC + DESC_SIZE * k)
        (d + NXTDESC + DESC_SIZE * (k + 1))) (BUFFER_ADDRESS + DESC_SIZE * k) (t + s * k))
        (CONTROL + DESC_SIZE * k) s w = _
    simp only [setMem, wupd, NXTDESC, BUFFER_ADDRESS, CONTROL, DESC_SIZE]
    rw [if_neg (by omega), if_neg (by omega), if_neg (by omega)]
    exact ih w (by omega)

/-- Reading the BUFFER_ADDRESS word of descriptor `i` after the
`incSGDescTable` loop. -/
theorem incLoop_read (t s n desc : Nat) (m : Nat → Nat) :
    ∀ k i, i < k →
      incLoop t s n desc m k (16 * i + 2) = u32 (t + s * (n * desc + i)) := by
  intro k
  induction k with
  | zero => intro i hi; omega
  | succ k ih =>
    intro i hi
    show setMem (incLoop t s n desc m k) (BUFFER_ADDRESS + DESC_SIZE * k)
        (t + s * (n * desc + k)) (16 * i + 2) = _
    simp only [setMem, wupd, BUFFER_ADDRESS, DESC_SIZE]
    by_cases he : i = k
    · subst he
      rw [if_pos (by omega)]
    · rw [if_neg (by omega)]
      exact ih i (by omega)

/-- Words other than written BUFFER_ADDRESS words are untouched by the
`incSGDescTable` loop. -/
theorem incLoop_frame (t s n desc : Nat) (m : Nat → Nat) :
    ∀ k w, (w % 16 ≠ 2 ∨ 16 * k ≤ w) → incLoop t s n desc m k w = m w := by
  intro k
  induction k with
  | zero => intro w _; rfl
  | succ k ih =>
    intro w hw
    show setMem (incLoop t s n desc m k) (BUFFER_ADDRESS + DESC_SIZE * k)
        (t + s * (n * desc + k)) w = _
    simp only [setMem, wupd, BUFFER_ADDRESS, DESC_SIZE]
    rw [if_neg (by omega)]
    exact ih w (by omega)

/-- The descriptor memory produced by `initSGDescriptors`. -/
theorem initSGDesc_mem (st1 : DMACtrl) (w : Nat) :
    (initSGDescriptors st1).bdmem w =
      setMem (writeDescs st1.descaddr st1.targetaddr st1.size
        (zeroLoop st1.bdmem (DESC_SIZE * st1.ndesc)) st1.ndesc)
        (NXTDESC + DESC_SIZE * (sub32 st1.ndesc 1)) 0 w := rfl

/-- The register memory produced by `initSGDescriptors`. -/
theorem initSGDesc_regmem (st1 : DMACtrl) :
    (initSGDescriptors st1).regmem =
      wupd st1.regmem (regOffset st1.channel RegName.CURDESC) st1.descaddr := rfl

/-- Lemma: `initSGDescriptors` marks `initsg`. -/
theorem initSGDesc_initsg (st1 : DMACtrl) : (initSGDescriptors st1).initsg = true := rfl

/-- The descriptor-array contents asserted by claim C1 after
`initSG(base, n, s, tgt)` on a channel-`ch` controller. -/
def C1Prop (base n s tgt : Nat) (ch : Channel) (st' : DMACtrl) : Prop :=
  (∀ i, i < n → st'.bdmem (16 * i + 2) = tgt + s * i) ∧
  (∀ i, i < n → st'.bdmem (16 * i + 6) = s) ∧
  (∀ i, i + 1 < n → st'.bdmem (16 * i) = base + 64 * (i + 1)) ∧
  st'.bdmem (16 * (n - 1)) = 0 ∧
  (∀ i w, i < n → w < 16 → w ≠ 0 → w ≠ 2 → w ≠ 6 → st'.bdmem (16 * i + w) = 0) ∧
  st'.regmem (regOffset ch RegName.CURDESC / 4) = base ∧
  st'.initsg = true

/-- Claim C1: after a successful `initSG(base, N, s, tgt)` (channel set,
SG-engine-present bit set, `1 ≤ N ≤ 255`, and the written addresses free of
32-bit wraparound), every descriptor `i < N` has
`BUFFER_ADDRESS[i] = tgt + s·i` (word `16·i+2`), `CONTROL[i] = s` (word
`16·i+6`), `NXTDESC[i] = base + 64·(i+1)` for `i < N−1` and
`NXTDESC[N−1] = 0`; every other word of each 64-byte descriptor is zero,
the CURDESC register holds `base`, and `initsg` is true. -/
theorem C1_initSG (st : DMACtrl) (env : Nat → Nat) (p : Nat)
    (base n s tgt : Nat) (m0 : Nat → Nat) (st' : DMACtrl)
    (hn1 : 1 ≤ n) (hn2 : n ≤ 255)
    (hbase : base + 64 * n < U32) (htgt : tgt + s * n < U32)
    (h : initSG st env p base n s tgt m0 = Except.ok st') :
    C1Prop base n s tgt st.channel st' := by
  have hs : s < U32 := by
    have hmul : s * 1 ≤ s * n := Nat.mul_le_mul (le_refl s) hn1
    omega
  have hnm : n % 256 = n := Nat.mod_eq_of_lt (by omega)
  have hbase' : base < U32 := by omega
  have htgt' : tgt < U32 := by omega
  unfold initSG at h
  by_cases hc : st.channel = Channel.UNKNOWN
  · rw [if_pos hc] at h
    exact absurd h (by simp)
  · rw [if_neg hc] at h
    by_cases hsg : sgBit (env p)
    · rw [if_neg (by simp [hsg])] at h
      obtain rfl := Except.ok.inj h
      refine ⟨?_, ?_, ?_, ?_, ?_, ?_, ?_⟩
      · intro i hi
        have hiv : tgt + s * i < U32 := by
          have hmul : s * i ≤ s * n := Nat.mul_le_mul (le_refl s) (by omega)
          omega
        rw [initSGDesc_mem]
        dsimp only
        simp only [hnm, u32_small hbase', u32_small htgt', u32_small hs]
        rw [sub32_small (by omega) (by omega)]
        simp only [setMem, wupd, NXTDESC, DESC_SIZE]
        rw [if_neg (by omega)]
        rw [writeDescs_buf]
        · exact u32_small hiv
        · exact hi
      · intro i hi
        rw [initSGDesc_mem]
        dsimp only
        simp only [hnm, u32_small hbase', u32_small htgt', u32_small hs]
        rw [sub32_small (by omega) (by omega)]
        simp only [setMem, wupd, NXTDESC, DESC_SIZE]
        rw [if_neg (by omega)]
        rw [writeDescs_ctl]
        · exact u32_small hs
        · exact hi
      · intro i hi
        have hiv : base + 64 * (i + 1) < U32 := by omega
        rw [initSGDesc_mem]
        dsimp only
        simp only [hnm, u32_small hbase', u32_small htgt', u32_small hs]
        rw [sub32_small (by omega) (by omega)]
        simp only [setMem, wupd, NXTDESC, DESC_SIZE]
        rw [if_neg (by omega)]
        rw [writeDescs_nxt]
        · simp only [NXTDESC, DESC_SIZE]
          rw [u32_small (by omega)]
          omega
        · omega
      · rw [initSGDesc_mem]
        dsimp only
        simp only [hnm, u32_small hbase', u32_small htgt', u32_small hs]
        rw [sub32_small (by omega) (by omega)]
        simp only [setMem, wupd, NXTDESC, DESC_SIZE]
        rw [if_pos (by omega)]
        simp [u32]
      · intro i w hi hw hw0 hw2 hw6
        rw [initSGDesc_mem]
        dsimp only
        simp only [hnm, u32_small hbase', u32_small htgt', u32_small hs]
        rw [sub32_small (by omega) (by omega)]
        simp only [setMem, wupd, NXTDESC, DESC_SIZE]
        rw [if_neg (by omega)]
        rw [writeDescs_frame]
        · rw [zeroLoop_read]
          rw [if_pos (by omega)]
        · left
          omega
      · rw [initSGDesc_regmem]
        dsimp only
        simp [wupd, u32_small hbase']
      · exact initSGDesc_initsg _
    · rw [if_pos (by simp [hsg])] at h
      exact absurd h (by simp)

set_option maxRecDepth 8000 in
/-- Witness instantiating `C1_initSG` at `initSG(0x10000000, 4, 2048,
0x70000000)` on an S2MM controller over zeroed descriptor memory. -/
theorem C1_initSG_witness :
    ((1 : Nat) ≤ 4 ∧ (4 : Nat) ≤ 255 ∧ 268435456 + 64 * 4 < U32 ∧
      1879048192 + 2048 * 4 < U32) ∧
    C1Prop 268435456 4 2048 1879048192 (setChannel mkDMACtrl Channel.S2MM).channel stSG4 :=
  ⟨⟨by decide, by decide, by decide, by decide⟩,
   C1_initSG (setChannel mkDMACtrl Channel.S2MM) (fun _ => 8) 0
     268435456 4 2048 1879048192 (fun _ => 0) stSG4
     (by decide) (by decide) (by decide) (by decide) rfl⟩

/-- The write-only-BUFFER_ADDRESS behaviour of `incSGDescTable` asserted by
claim C10, with the ring index narrowed by the method's `uint8_t`
parameter. -/
def C10Prop (st : DMACtrl) (k : Nat) (st' : DMACtrl) : Prop :=
  (∀ i, i < st.ndesc →
    st'.bdmem (16 * i + 2) = st.targetaddr + st.size * (st.ndesc * (k % 256) + i)) ∧
  (∀ w, w % 16 ≠ 2 ∨ 16 * st.ndesc ≤ w → st'.bdmem w = st.bdmem w) ∧
  st'.regmem = st.regmem ∧ st'.channel = st.channel ∧
  st'.bdStartIndex = st.bdStartIndex ∧ st'.bdStopIndex = st.bdStopIndex ∧
  st'.lastIrqThreshold = st.lastIrqThreshold ∧ st'.blockOffset = st.blockOffset ∧
  st'.blockSize = st.blockSize ∧ st'.curWait = st.curWait ∧ st'.size = st.size ∧
  st'.targetaddr = st.targetaddr ∧ st'.ndesc = st.ndesc ∧ st'.descaddr = st.descaddr ∧
  st'.initsg = st.initsg ∧ st'.blockTransfer = st.blockTransfer ∧
  st'.bufferTransfer = st.bufferTransfer

set_option maxRecDepth 8000 in
/-- Claim C10, counterexample: `incSGDescTable` receives its ring index
through a `uint8_t` parameter (dmactrl.cpp:424), so the argument is
truncated modulo 256.  On the SG-initialized controller `stSG4`
(`N = 4`, `s = 2048`, `targetaddr = 0x70000000`) a call with `k = 257`
writes `BUFFER_ADDRESS[0] = targetaddr + 2048·(4·1 + 0)` — the value for
`k mod 256 = 1` — not the claimed `targetaddr + 2048·(4·257 + 0)`, even
though neither value wraps around 32 bits. -/
theorem C10_counterexample :
    stSG4.initsg = true ∧ stSG4.ndesc = 4 ∧ stSG4.size = 2048 ∧
    stSG4.targetaddr = 1879048192 ∧
    (exGetD (incSGDescTable stSG4 257)).bdmem 2 = 1879048192 + 2048 * (4 * 1 + 0) ∧
    (1879048192 + 2048 * (4 * 1 + 0) : Nat) ≠ 1879048192 + 2048 * (4 * 257 + 0) :=
  ⟨rfl, rfl, rfl, rfl, rfl, by decide⟩

/-- Claim C10 (amended): on an SG-initialized controller, `incSGDescTable(k)`
(whose `uint8_t` parameter truncates the ring index to `k mod 256`, and whose
written values do not wrap around 32 bits) writes only the BUFFER_ADDRESS
word of each of the `N` descriptors, setting
`BUFFER_ADDRESS[i] = targetaddr + size·(N·(k mod 256) + i)` — equal to the
claimed `targetaddr + size·(N·k + i)` exactly when `k ≤ 255`; every other
descriptor word (NXTDESC, CONTROL, STATUS and reserved words), the whole
register window, the descriptor cursors (`bdStartIndex`, `bdStopIndex`,
`lastIrqThreshold`) and all remaining driver state are unchanged. -/
theorem C10_incSGDescTable (st : DMACtrl) (k : Nat) (st' : DMACtrl)
    (hov : st.targetaddr + st.size * (st.ndesc * (k % 256) + st.ndesc) < U32)
    (h : incSGDescTable st k = Except.ok st') : C10Prop st k st' := by
  unfold incSGDescTable at h
  by_cases hi : st.initsg
  · rw [if_neg (by simp [hi])] at h
    obtain rfl := Except.ok.inj h
    refine ⟨?_, ?_, rfl, rfl, rfl, rfl, rfl, rfl, rfl, rfl, rfl, rfl, rfl, rfl, rfl, rfl, rfl⟩
    · intro i hlt
      have hiv : st.targetaddr + st.size * (st.ndesc * (k % 256) + i) < U32 := by
        have hmul : st.size * (st.ndesc * (k % 256) + i) ≤
            st.size * (st.ndesc * (k % 256) + st.ndesc) :=
          Nat.mul_le_mul (le_refl st.size) (by omega)
        omega
      dsimp only
      rw [incLoop_read _ _ _ _ _ _ _ hlt]
      exact u32_small hiv
    · intro w hw
      dsimp only
      rw [incLoop_frame _ _ _ _ _ _ _ hw]
  · rw [if_pos (by simp [hi])] at h
    exact absurd h (by simp)

set_option maxRecDepth 8000 in
/-- Witness instantiating `C10_incSGDescTable` at the SG-initialized
controller `stSG4` with `k = 257`, exercising the `uint8_t` truncation. -/
theorem C10_incSGDescTable_witness :
    (stSG4.targetaddr + stSG4.size * (stSG4.ndesc * (257 % 256) + stSG4.ndesc) < U32) ∧
    C10Prop stSG4 257 (exGetD (incSGDescTable stSG4 257)) :=
  ⟨by decide,
   C10_incSGDescTable stSG4 257 (exGetD (incSGDescTable stSG4 257)) (by decide) rfl⟩

/-- Dispatch row of `rx`, direct mode: SG-engine-present bit clear. -/
theorem rx_eq_directRx (st : DMACtrl) (env : Nat → Nat) (p t fuel : Nat)
    (hc : st.channel ≠ Channel.UNKNOWN) (hsg : sgBit (env p) = false) :
    rx st env p t fuel = directRx st env (p + 1) t fuel := by
  unfold rx
  rw [if_neg hc, if_pos (by simp [hsg])]

/-- Dispatch row of `rx`, block resume: SG present, `blockTransfer` set. -/
theorem rx_eq_blockRx_resume (st : DMACtrl) (env : Nat → Nat) (p t fuel : Nat)
    (hc : st.channel ≠ Channel.UNKNOWN) (hsg : sgBit (env p) = true)
    (hb : st.blockTransfer = true) :
    rx st env p t fuel = blockRx st env (p + 1) t fuel := by
  unfold rx
  rw [if_neg hc, if_neg (by simp [hsg]), if_pos hb]

/-- Dispatch row of `rx`, buffer resume: SG present, `bufferTransfer` set. -/
theorem rx_eq_bufferRx_resume (st : DMACtrl) (env : Nat → Nat) (p t fuel : Nat)
    (hc : st.channel ≠ Channel.UNKNOWN) (hsg : sgBit (env p) = true)
    (hb : st.blockTransfer = false) (hf : st.bufferTransfer = true) :
    rx st env p t fuel = bufferRx st env (p + 1) t fuel := by
  unfold rx
  rw [if_neg hc, if_neg (by simp [hsg]), if_neg (by simp [hb]), if_pos hf]

/-- Dispatch row of `rx`, low-rate path: no transfer in progress, `curWait = maxWait`. -/
theorem rx_eq_blockRx_fresh (st : DMACtrl) (env : Nat → Nat) (p t fuel : Nat)
    (hc : st.channel ≠ Channel.UNKNOWN) (hsg : sgBit (env p) = true)
    (hb : st.blockTransfer = false) (hf : st.bufferTransfer = false)
    (hw : st.curWait = st.maxWait) :
    rx st env p t fuel = blockRx st env (p + 1) t fuel := by
  unfold rx
  rw [if_neg hc, if_neg (by simp [hsg]), if_neg (by simp [hb]), if_neg (by simp [hf]),
    if_pos hw]

/-- Dispatch row of `rx`, high-rate path: no transfer in progress, `curWait ≠ maxWait`. -/
theorem rx_eq_bufferRx_fresh (st : DMACtrl) (env : Nat → Nat) (p t fuel : Nat)
    (hc : st.channel ≠ Channel.UNKNOWN) (hsg : sgBit (env p) = true)
    (hb : st.blockTransfer = false) (hf : st.bufferTransfer = false)
    (hw : st.curWait ≠ st.maxWait) :
    rx st env p t fuel = bufferRx st env (p + 1) t fuel := by
  unfold rx
  rw [if_neg hc, if_neg (by simp [hsg]), if_neg (by simp [hb]), if_neg (by simp [hf]),
    if_neg hw]

/-- The rx decision table asserted by claim C2. -/
def C2Prop (st : DMACtrl) (env : Nat → Nat) (p t fuel : Nat) : Prop :=
  (sgBit (env p) = false → rx st env p t fuel = directRx st env (p + 1) t fuel) ∧
  (sgBit (env p) = true → st.blockTransfer = true →
    rx st env p t fuel = blockRx st env (p + 1) t fuel) ∧
  (sgBit (env p) = true → st.blockTransfer = false → st.bufferTransfer = true →
    rx st env p t fuel = bufferRx st env (p + 1) t fuel) ∧
  (sgBit (env p) = true → st.blockTransfer = false → st.bufferTransfer = false →
    st.curWait ≤ st.maxWait →
    (st.curWait = st.maxWait → rx st env p t fuel = blockRx st env (p + 1) t fuel) ∧
    (st.curWait < st.maxWait → rx st env p t fuel = bufferRx st env (p + 1) t fuel))

/-- Claim C2: for every `rx(timeout)` call on a set channel, if the
SG-engine-present bit read from DMASR is clear `rx` behaves as `directRx`;
otherwise a set `blockTransfer` resumes `blockRx`, a set `bufferTransfer`
resumes `bufferRx`, and a fresh SG receive (with `curWait ≤ maxWait`, the
adaptive-calibration invariant) behaves as `blockRx` exactly when
`curWait = maxWait` and as `bufferRx` exactly when `curWait < maxWait`.
The sub-call continues at the next DMASR oracle position, the dispatch
having consumed one read. -/
theorem C2_rx_dispatch (st : DMACtrl) (env : Nat → Nat) (p t fuel : Nat)
    (hc : st.channel ≠ Channel.UNKNOWN) : C2Prop st env p t fuel := by
  refine ⟨?_, ?_, ?_, ?_⟩
  · intro hsg
    exact rx_eq_directRx st env p t fuel hc hsg
  · intro hsg hb
    exact rx_eq_blockRx_resume st env p t fuel hc hsg hb
  · intro hsg hb hf
    exact rx_eq_bufferRx_resume st env p t fuel hc hsg hb hf
  · intro hsg hb hf hle
    constructor
    · intro he
      exact rx_eq_blockRx_fresh st env p t fuel hc hsg hb hf he
    · intro hlt
      exact rx_eq_bufferRx_fresh st env p t fuel hc hsg hb hf (by omega)

/-- Witness instantiating `C2_rx_dispatch` at an S2MM controller fresh from
the constructor. -/
theorem C2_rx_dispatch_witness :
    ((setChannel mkDMACtrl Channel.S2MM).channel ≠ Channel.UNKNOWN) ∧
    C2Prop (setChannel mkDMACtrl Channel.S2MM) (fun _ => 0) 0 100 3 :=
  ⟨by decide, C2_rx_dispatch (setChannel mkDMACtrl Channel.S2MM) (fun _ => 0) 0 100 3 (by decide)⟩

/-- On the S2MM channel `isRunning` never reports a stopped engine: the
32-bit complement of the masked halted bit is always nonzero. -/
theorem isRunningE_S2MM (v : Nat) : isRunningE Channel.S2MM v = Except.ok true := by
  have hb : Nat.land v 1 ≤ 1 := Nat.and_le_right
  have hne : not32 (Nat.land v 1) ≠ 0 := by
    unfold not32 U32
    omega
  simp [isRunningE, hne]

/-- An `if`-guarded `calibrateWaitTime` modifies at most `curWait`. -/
theorem calibrate_opt_shape (c : Prop) [Decidable c] (st : DMACtrl) (nl : Nat) :
    (if c then calibrateWaitTime st nl else st) =
      { st with curWait := (if c then calibrateWaitTime st nl else st).curWait } := by
  split_ifs with h
  · exact calibrate_shape st nl
  · rfl

/-- Lemma: `blockRxFinish` never returns false: it either throws the
`getBufferAddress` bound error or completes with true. -/
theorem blockRxFinish_ne_false (t : Nat) (st : DMACtrl) (rb nloops waitTime p : Nat)
    (st' : DMACtrl) (w p' : Nat) :
    blockRxFinish t st rb nloops waitTime p ≠ Res.done false st' w p' := by
  intro h
  simp only [blockRxFinish] at h
  split at h <;> split at h <;> simp at h

/-- Completion shape of `blockRxFinish` when the ready range stays inside
the ring: the returned state reports `bdStopIndex = bdStartIndex + rb − 1`,
`blockOffset = BUFFER_ADDRESS[bdStartIndex] − targetaddr` and
`blockSize = size·rb`, leaving the threshold, the flags, the channel and the
ring size as given. -/
theorem blockRxFinish_done (t : Nat) (st : DMACtrl) (rb nloops waitTime p : Nat)
    (hn2 : st.ndesc ≤ 255) (hrb1 : 1 ≤ rb) (hrb : st.bdStartIndex + rb ≤ st.ndesc) :
    ∃ stf, blockRxFinish t st rb nloops waitTime p = Res.done true stf waitTime (p + 2) ∧
      stf.bdStopIndex = st.bdStartIndex + rb - 1 ∧
      stf.blockOffset = sub32 (st.bdmem (2 + 16 * st.bdStartIndex)) st.targetaddr ∧
      stf.blockSize = u32 (st.size * rb) ∧
      stf.ndesc = st.ndesc ∧ stf.channel = st.channel ∧
      stf.lastIrqThreshold = st.lastIrqThreshold ∧
      stf.blockTransfer = st.blockTransfer ∧ stf.bufferTransfer = st.bufferTransfer := by
  have hU : (255 : Nat) < U32 := by
    simp only [U32]
    omega
  have hb : st.bdStartIndex < st.ndesc := by omega
  have e1 : sub32 (add32 st.bdStartIndex rb) 1 = st.bdStartIndex + rb - 1 := by
    rw [add32_small (by omega)]
    exact sub32_small (by omega) (by omega)
  have hd : st.bdStartIndex % 256 = st.bdStartIndex := Nat.mod_eq_of_lt (by omega)
  have hoff : (BUFFER_ADDRESS + DESC_SIZE * st.bdStartIndex) / 4 =
      2 + 16 * st.bdStartIndex := by
    simp only [BUFFER_ADDRESS, DESC_SIZE]
    omega
  have e2 : add32 (sub32 (st.bdStartIndex + rb - 1) st.bdStartIndex) 1 = rb := by
    rw [sub32_small (by omega) (by omega)]
    rw [add32_small (by omega)]
    omega
  simp only [blockRxFinish]
  rw [e1, calibrate_opt_shape]
  dsimp only
  rw [hd, sub32_small (by omega) (by omega)]
  rw [if_neg (by omega)]
  simp only [getMem]
  rw [hoff, e2]
  refine ⟨_, rfl, ?_, ?_, ?_, ?_, ?_, ?_, ?_, ?_⟩ <;> split_ifs <;> rfl

/-- Completion lemma for the `blockRx` polling loop under the descriptor
cursor invariant `bdStartIndex + lastIrqThreshold ≤ ndesc` (established by
`runSG` and preserved by completed non-idle receives): a completed loop
reports `bdStartIndex ≤ bdStopIndex < ndesc`,
`blockSize = size·(bdStopIndex − bdStartIndex + 1)` and
`blockOffset = BUFFER_ADDRESS[bdStartIndex] − targetaddr`. -/
theorem blockRxLoop_true (env : Nat → Nat) (t step : Nat) :
    ∀ fuel st nloops waitTime p st' w p',
      st.channel = Channel.S2MM → 1 ≤ st.ndesc → st.ndesc ≤ 255 →
      st.bdStartIndex < st.ndesc →
      st.bdStartIndex + st.lastIrqThreshold ≤ st.ndesc →
      blockRxLoop env t step fuel st nloops waitTime p = Res.done true st' w p' →
      st.bdStartIndex ≤ st'.bdStopIndex ∧ st'.bdStopIndex < st.ndesc ∧
      st'.blockSize = u32 (st.size * (st'.bdStopIndex - st.bdStartIndex + 1)) ∧
      st'.blockOffset = sub32 (st.bdmem (2 + 16 * st.bdStartIndex)) st.targetaddr := by
  intro fuel
  induction fuel with
  | zero =>
    intro st nloops waitTime p st' w p' _ _ _ _ _ h
    exact absurd h (by simp [blockRxLoop])
  | succ fuel ih =>
    intro st nloops waitTime p st' w p' hch hn1 hn2 hbd hinv h
    have hU : (255 : Nat) < U32 := by
      simp only [U32]
      omega
    simp only [blockRxLoop] at h
    rw [if_neg (by simp [hch])] at h
    by_cases hidle : isIdleBit (env (p + 1))
    · rw [if_pos hidle] at h
      dsimp only at h
      have e0 : sub32 st.ndesc 1 = st.ndesc - 1 := sub32_small (by omega) (by omega)
      rw [e0] at h
      have erb : add32 (sub32 (st.ndesc - 1) st.bdStartIndex) 1 % 256 =
          st.ndesc - st.bdStartIndex := by
        rw [sub32_small (by omega) (by omega), add32_small (by omega)]
        omega
      rw [erb] at h
      rw [if_pos (by omega : 0 < st.ndesc - st.bdStartIndex)] at h
      obtain ⟨stf, heq, hstop, hoffv, hsizev, _, _, _, _, _⟩ :=
        blockRxFinish_done t
          { st with bdStopIndex := st.ndesc - 1, lastIrqThreshold := st.ndesc,
                    blockTransfer := false }
          (st.ndesc - st.bdStartIndex) nloops waitTime p
          (by dsimp only; omega) (by omega) (by dsimp only; omega)
      rw [heq] at h
      cases h
      dsimp only at hstop hoffv hsizev
      refine ⟨by omega, by omega, ?_, ?_⟩
      · rw [hsizev, hstop]
        have he : st.bdStartIndex + (st.ndesc - st.bdStartIndex) - 1 - st.bdStartIndex + 1 =
            st.ndesc - st.bdStartIndex := by omega
        rw [he]
      · exact hoffv
    · rw [if_neg hidle] at h
      have hirq : Nat.land (env p) 16711680 / 65536 ≤ 255 := by
        have h1 : Nat.land (env p) 16711680 ≤ 16711680 := Nat.and_le_right
        omega
      generalize hq : Nat.land (env p) 16711680 / 65536 = irqT at h hirq
      by_cases hlt : irqT < st.lastIrqThreshold
      · rw [if_pos hlt] at h
        dsimp only at h
        have erb : sub32 (sub32 st.ndesc irqT) st.bdStartIndex % 256 =
            st.ndesc - irqT - st.bdStartIndex := by
          rw [sub32_small (show irqT ≤ st.ndesc by omega) (by omega)]
          rw [sub32_small (show st.bdStartIndex ≤ st.ndesc - irqT by omega) (by omega)]
          omega
        rw [erb] at h
        rw [if_pos (by omega)] at h
        obtain ⟨stf, heq, hstop, hoffv, hsizev, _, _, _, _, _⟩ :=
          blockRxFinish_done t { st with lastIrqThreshold := irqT }
            (st.ndesc - irqT - st.bdStartIndex) nloops waitTime p
            (by dsimp only; omega) (by omega) (by dsimp only; omega)
        rw [heq] at h
        cases h
        dsimp only at hstop hoffv hsizev
        refine ⟨by omega, by omega, ?_, ?_⟩
        · rw [hsizev, hstop]
          have he : st.bdStartIndex + (st.ndesc - irqT - st.bdStartIndex) - 1 -
              st.bdStartIndex + 1 = st.ndesc - irqT - st.bdStartIndex := by omega
          rw [he]
        · exact hoffv
      · rw [if_neg hlt] at h
        dsimp only at h
        rw [if_neg (by omega : ¬ (0:Nat) < 0)] at h
        by_cases hcont : u32 (waitTime + step) < t ∨ t = 0
        · rw [if_pos hcont] at h
          exact ih st _ _ _ st' w p' hch hn1 hn2 hbd hinv h
        · rw [if_neg hcont] at h
          exact absurd h (by simp)

/-- Timeout lemma for the `blockRx` polling loop: a false return leaves
`blockOffset`, `blockSize`, the descriptor cursors, `curWait` and both
transfer flags exactly as given; `lastIrqThreshold` never increases (it is
lowered only when a threshold decrease yielding no ready blocks is
observed); and the accumulated wait has reached the timeout. -/
theorem blockRxLoop_false (env : Nat → Nat) (t step : Nat) :
    ∀ fuel st nloops waitTime p st' w p',
      st.channel = Channel.S2MM → 1 ≤ st.ndesc → st.ndesc ≤ 255 →
      st.bdStartIndex < st.ndesc →
      blockRxLoop env t step fuel st nloops waitTime p = Res.done false st' w p' →
      st'.blockOffset = st.blockOffset ∧ st'.blockSize = st.blockSize ∧
      st'.bdStartIndex = st.bdStartIndex ∧ st'.bdStopIndex = st.bdStopIndex ∧
      st'.curWait = st.curWait ∧ st'.lastIrqThreshold ≤ st.lastIrqThreshold ∧
      st'.blockTransfer = st.blockTransfer ∧ st'.bufferTransfer = st.bufferTransfer ∧
      st'.channel = st.channel ∧ st'.initsg = st.initsg ∧ st'.ndesc = st.ndesc ∧
      st'.maxWait = st.maxWait ∧ st'.minWait = st.minWait ∧ t ≤ w := by
  intro fuel
  induction fuel with
  | zero =>
    intro st nloops waitTime p st' w p' _ _ _ _ h
    exact absurd h (by simp [blockRxLoop])
  | succ fuel ih =>
    intro st nloops waitTime p st' w p' hch hn1 hn2 hbd h
    have hU : (255 : Nat) < U32 := by
      simp only [U32]
      omega
    simp only [blockRxLoop] at h
    rw [if_neg (by simp [hch])] at h
    by_cases hidle : isIdleBit (env (p + 1))
    · rw [if_pos hidle] at h
      dsimp only at h
      have e0 : sub32 st.ndesc 1 = st.ndesc - 1 := sub32_small (by omega) (by omega)
      rw [e0] at h
      have erb : add32 (sub32 (st.ndesc - 1) st.bdStartIndex) 1 % 256 =
          st.ndesc - st.bdStartIndex := by
        rw [sub32_small (by omega) (by omega), add32_small (by omega)]
        omega
      rw [erb] at h
      rw [if_pos (by omega : 0 < st.ndesc - st.bdStartIndex)] at h
      exact absurd h (blockRxFinish_ne_false _ _ _ _ _ _ _ _ _)
    · rw [if_neg hidle] at h
      generalize hq : Nat.land (env p) 16711680 / 65536 = irqT at h
      by_cases hlt : irqT < st.lastIrqThreshold
      · rw [if_pos hlt] at h
        dsimp only at h
        by_cases hrb : 0 < sub32 (sub32 st.ndesc irqT) st.bdStartIndex % 256
        · rw [if_pos hrb] at h
          exact absurd h (blockRxFinish_ne_false _ _ _ _ _ _ _ _ _)
        · rw [if_neg hrb] at h
          by_cases hcont : u32 (waitTime + step) < t ∨ t = 0
          · rw [if_pos hcont] at h
            have hres := ih { st with lastIrqThreshold := irqT } _ _ _ st' w p'
              (by dsimp only; exact hch) (by dsimp only; omega) (by dsimp only; omega)
              (by dsimp only; omega) h
            dsimp only at hres
            exact ⟨hres.1, hres.2.1, hres.2.2.1, hres.2.2.2.1, hres.2.2.2.2.1,
              by omega, hres.2.2.2.2.2.2.1, hres.2.2.2.2.2.2.2.1,
              hres.2.2.2.2.2.2.2.2.1, hres.2.2.2.2.2.2.2.2.2.1,
              hres.2.2.2.2.2.2.2.2.2.2.1, hres.2.2.2.2.2.2.2.2.2.2.2.1,
              hres.2.2.2.2.2.2.2.2.2.2.2.2.1, hres.2.2.2.2.2.2.2.2.2.2.2.2.2⟩
          · rw [if_neg hcont] at h
            cases h
            refine ⟨rfl, rfl, rfl, rfl, rfl, by dsimp only; omega, rfl, rfl, rfl, rfl,
              rfl, rfl, rfl, by omega⟩
      · rw [if_neg hlt] at h
        dsimp only at h
        rw [if_neg (by omega : ¬ (0:Nat) < 0)] at h
        by_cases hcont : u32 (waitTime + step) < t ∨ t = 0
        · rw [if_pos hcont] at h
          exact ih st _ _ _ st' w p' hch hn1 hn2 hbd h
        · rw [if_neg hcont] at h
          cases h
          exact ⟨rfl, rfl, rfl, rfl, rfl, le_refl _, rfl, rfl, rfl, rfl, rfl, rfl, rfl,
            by omega⟩

/-- Timeout lemma for the `directRx` polling loop: a false return leaves the
driver state untouched and the accumulated wait has reached the timeout. -/
theorem directRxLoop_false (env : Nat → Nat) (t step : Nat) :
    ∀ fuel st nloops waitTime p st' w p',
      directRxLoop env t step fuel st nloops waitTime p = Res.done false st' w p' →
      st' = st ∧ t ≤ w := by
  intro fuel
  induction fuel with
  | zero =>
    intro st nloops waitTime p st' w p' h
    exact absurd h (by simp [directRxLoop])
  | succ fuel ih =>
    intro st nloops waitTime p st' w p' h
    simp only [directRxLoop] at h
    by_cases hch : st.channel = Channel.UNKNOWN
    · rw [if_pos hch] at h
      exact absurd h (by simp)
    · rw [if_neg hch] at h
      by_cases hidle : isIdleBit (env p)
      · rw [if_pos hidle] at h
        exact absurd h (by simp)
      · rw [if_neg hidle] at h
        by_cases hcont : u32 (waitTime + step) < t ∨ t = 0
        · rw [if_pos hcont] at h
          exact ih st _ _ _ st' w p' h
        · rw [if_neg hcont] at h
          cases h
          exact ⟨rfl, by omega⟩

/-- Timeout lemma for the `bufferRx` polling loop: a false return leaves the
driver state untouched and the accumulated wait has reached the timeout. -/
theorem bufferRxLoop_false (env : Nat → Nat) (t step : Nat) :
    ∀ fuel st nloops waitTime p st' w p',
      bufferRxLoop env t step fuel st nloops waitTime p = Res.done false st' w p' →
      st' = st ∧ t ≤ w := by
  intro fuel
  induction fuel with
  | zero =>
    intro st nloops waitTime p st' w p' h
    exact absurd h (by simp [bufferRxLoop])
  | succ fuel ih =>
    intro st nloops waitTime p st' w p' h
    simp only [bufferRxLoop] at h
    by_cases hch : st.channel = Channel.UNKNOWN
    · rw [if_pos hch] at h
      exact absurd h (by simp)
    · rw [if_neg hch] at h
      by_cases hidle : isIdleBit (env p)
      · rw [if_pos hidle] at h
        exact absurd h (by simp)
      · rw [if_neg hidle] at h
        by_cases hcont : u32 (waitTime + step) < t ∨ t = 0
        · rw [if_pos hcont] at h
          exact ih st _ _ _ st' w p' h
        · rw [if_neg hcont] at h
          cases h
          exact ⟨rfl, by omega⟩

/-- A false `directRx` return leaves the driver state untouched and has
slept at least the timeout budget. -/
theorem directRx_false (st : DMACtrl) (env : Nat → Nat) (p t fuel : Nat)
    (st' : DMACtrl) (w p' : Nat)
    (h : directRx st env p t fuel = Res.done false st' w p') :
    st' = st ∧ t ≤ w := by
  unfold directRx at h
  by_cases hc : st.channel = Channel.UNKNOWN
  · rw [if_pos hc] at h
    exact absurd h (by simp)
  · rw [if_neg hc] at h
    by_cases hsg : sgBit (env p) = true
    · rw [if_pos hsg] at h
      exact absurd h (by simp)
    · rw [if_neg hsg] at h
      by_cases hs2 : st.channel ≠ Channel.S2MM
      · rw [if_pos hs2] at h
        exact absurd h (by simp)
      · rw [if_neg hs2] at h
        have hch : st.channel = Channel.S2MM := by
          by_contra hx
          exact hs2 hx
        rw [hch, isRunningE_S2MM] at h
        dsimp only at h
        rw [if_neg (by simp)] at h
        exact directRxLoop_false env t _ fuel st 0 0 (p + 2) st' w p' h

/-- A false `bufferRx` return raises `bufferTransfer` and changes nothing
else, having slept at least the timeout budget. -/
theorem bufferRx_false (st : DMACtrl) (env : Nat → Nat) (p t fuel : Nat)
    (st' : DMACtrl) (w p' : Nat)
    (h : bufferRx st env p t fuel = Res.done false st' w p') :
    st' = { st with bufferTransfer := true } ∧ t ≤ w := by
  unfold bufferRx at h
  by_cases hsg : st.initsg = true
  · rw [if_neg (by simp [hsg])] at h
    by_cases hs2 : st.channel ≠ Channel.S2MM
    · rw [if_pos hs2] at h
      exact absurd h (by simp)
    · rw [if_neg hs2] at h
      have hch : st.channel = Channel.S2MM := by
        by_contra hx
        exact hs2 hx
      rw [show isRunningE st.channel (env p) = Except.ok true from by
        rw [hch]
        exact isRunningE_S2MM _] at h
      dsimp only at h
      rw [if_neg (by simp)] at h
      exact bufferRxLoop_false env t _ fuel _ 0 0 (p + 1) st' w p' h
  · rw [if_pos (by simp [hsg])] at h
    exact absurd h (by simp)

/-- A false `blockRx` return raises `blockTransfer`, may lower
`lastIrqThreshold`, changes none of the other listed members, and has slept
at least the timeout budget. -/
theorem blockRx_false (st : DMACtrl) (env : Nat → Nat) (p t fuel : Nat)
    (st' : DMACtrl) (w p' : Nat)
    (hn1 : 1 ≤ st.ndesc) (hn2 : st.ndesc ≤ 255) (hbd : st.bdStartIndex < st.ndesc)
    (h : blockRx st env p t fuel = Res.done false st' w p') :
    st'.blockOffset = st.blockOffset ∧ st'.blockSize = st.blockSize ∧
    st'.bdStartIndex = st.bdStartIndex ∧ st'.bdStopIndex = st.bdStopIndex ∧
    st'.curWait = st.curWait ∧ st'.lastIrqThreshold ≤ st.lastIrqThreshold ∧
    st'.blockTransfer = true ∧ st'.bufferTransfer = st.bufferTransfer ∧
    st'.channel = st.channel ∧ st'.initsg = st.initsg ∧ st'.ndesc = st.ndesc ∧
    st'.maxWait = st.maxWait ∧ st'.minWait = st.minWait ∧ t ≤ w := by
  unfold blockRx at h
  by_cases hsg : st.initsg = true
  · rw [if_neg (by simp [hsg])] at h
    by_cases hs2 : st.channel ≠ Channel.S2MM
    · rw [if_pos hs2] at h
      exact absurd h (by simp)
    · rw [if_neg hs2] at h
      have hch : st.channel = Channel.S2MM := by
        by_contra hx
        exact hs2 hx
      rw [show isRunningE st.channel (env p) = Except.ok true from by
        rw [hch]
        exact isRunningE_S2MM _] at h
      dsimp only at h
      rw [if_neg (by simp)] at h
      have hres := blockRxLoop_false env t _ fuel { st with blockTransfer := true }
        0 0 (p + 1) st' w p' (by dsimp only; exact hch) (by dsimp only; omega)
        (by dsimp only; omega) (by dsimp only; omega) h
      dsimp only at hres
      exact hres
  · rw [if_pos (by simp [hsg])] at h
    exact absurd h (by simp)

/-- A true `blockRx` return under the invariants of `blockRxLoop_true`. -/
theorem blockRx_true (st : DMACtrl) (env : Nat → Nat) (p t fuel : Nat)
    (st' : DMACtrl) (w p' : Nat)
    (hn1 : 1 ≤ st.ndesc) (hn2 : st.ndesc ≤ 255) (hbd : st.bdStartIndex < st.ndesc)
    (hinv : st.bdStartIndex + st.lastIrqThreshold ≤ st.ndesc)
    (h : blockRx st env p t fuel = Res.done true st' w p') :
    st.bdStartIndex ≤ st'.bdStopIndex ∧ st'.bdStopIndex < st.ndesc ∧
    st'.blockSize = u32 (st.size * (st'.bdStopIndex - st.bdStartIndex + 1)) ∧
    st'.blockOffset = sub32 (st.bdmem (2 + 16 * st.bdStartIndex)) st.targetaddr := by
  unfold blockRx at h
  by_cases hsg : st.initsg = true
  · rw [if_neg (by simp [hsg])] at h
    by_cases hs2 : st.channel ≠ Channel.S2MM
    · rw [if_pos hs2] at h
      exact absurd h (by simp)
    · rw [if_neg hs2] at h
      have hch : st.channel = Channel.S2MM := by
        by_contra hx
        exact hs2 hx
      rw [show isRunningE st.channel (env p) = Except.ok true from by
        rw [hch]
        exact isRunningE_S2MM _] at h
      dsimp only at h
      rw [if_neg (by simp)] at h
      have hres := blockRxLoop_true env t _ fuel { st with blockTransfer := true }
        0 0 (p + 1) st' w p' (by dsimp only; exact hch) (by dsimp only; omega)
        (by dsimp only; omega) (by dsimp only; omega) (by dsimp only; omega) h
      dsimp only at hres
      exact hres
  · rw [if_pos (by simp [hsg])] at h
    exact absurd h (by simp)

/-- State `stSG4` armed by `runSG` (cursors reset, `lastIrqThreshold = 4`). -/
def stRun4 : DMACtrl := exGetD (runSG stSG4)

/-- State `stRun4` with `curWait` raised to `maxWait` by two upward calibrations
(`nloops = 11 > maxLoop`), putting the dispatch on the block-granular path. -/
def stRun4max : DMACtrl := calibrateWaitTime (calibrateWaitTime stRun4 11) 11

/-- State `stRun4max` advanced one whole ring by `incSGDescTable(1)`. -/
def stInc4 : DMACtrl := exGetD (incSGDescTable stRun4max 1)

/-- Driver state after `rx` on `stRun4max` observed IRQ threshold 2
(DMASR = 0x20008: two descriptors completed, not idle): a completed block
receive that advances `bdStartIndex` to 2 and records threshold 2. -/
def cxB : DMACtrl := resSt (rx stRun4max (fun _ => 131080) 0 100 5)

/-- Driver state after a further `rx` observed idle (DMASR = 0xA): the ring
end is reported, `lastIrqThreshold` reloads to 4, `blockTransfer` clears,
while `bdStartIndex` stays 2. -/
def cxC : DMACtrl := resSt (rx cxB (fun _ => 10) 0 100 5)

/-- The completion report asserted by claim C3, with `blockOffset` read from
the completing descriptor's BUFFER_ADDRESS field. -/
def C3Prop (st st' : DMACtrl) : Prop :=
  st.bdStartIndex ≤ st'.bdStopIndex ∧ st'.bdStopIndex < st.ndesc ∧
  st'.blockSize = u32 (st.size * (st'.bdStopIndex - st.bdStartIndex + 1)) ∧
  st'.blockOffset = sub32 (st.bdmem (2 + 16 * st.bdStartIndex)) st.targetaddr

set_option maxRecDepth 100000 in
/-- Claim C3, counterexample.  First: after `initSG(_, 4, 2048, _)`, `runSG`
and `incSGDescTable(1)`, a completing block-mode `rx` (idle observed) reports
`blockOffset = 8192 = s·(N·k + bdStartIndex)`, not `s·bdStartIndex = 0`.
Second: in the reachable state `cxC` — left by an idle completion with
`bdStartIndex = 2` and a reloaded threshold — a block-mode `rx` observing
IRQ threshold 3 (one descriptor of the next lap done) completes with
`bdStopIndex = 256 ≥ N = 4`: the `uint8_t` narrowing of
`readyBlocks = N − irqT − bdStartIndex` wraps to 255. -/
theorem C3_counterexample :
    (resRet (rx stInc4 (fun _ => 10) 0 100 5) = some true ∧
     stInc4.bdStartIndex = 0 ∧ stInc4.size = 2048 ∧ stInc4.ndesc = 4 ∧
     (resSt (rx stInc4 (fun _ => 10) 0 100 5)).blockOffset = 8192 ∧
     (8192 : Nat) ≠ 2048 * 0) ∧
    (resRet (rx cxC (fun _ => 196616) 0 100 5) = some true ∧
     cxC.ndesc = 4 ∧ cxC.bdStartIndex = 2 ∧
     (resSt (rx cxC (fun _ => 196616) 0 100 5)).bdStopIndex = 256 ∧
     ¬ (256 : Nat) < 4) := by
  exact ⟨⟨rfl, rfl, rfl, rfl, rfl, by decide⟩, ⟨rfl, rfl, rfl, rfl, by decide⟩⟩

/-- Claim C3 (amended): for every `rx` call that returns true on the
block-granular SG path, from a state whose descriptor cursor satisfies
`bdStartIndex + lastIrqThreshold ≤ N` and `bdStartIndex < N ≤ 255`
(established by `runSG` and preserved by completed non-idle block receives):
`bdStartIndex_before ≤ bdStopIndex < N`,
`blockSize = s·(bdStopIndex − bdStartIndex_before + 1)`, and
`blockOffset = BUFFER_ADDRESS[bdStartIndex_before] − targetaddr` (which
equals `s·(N·k + bdStartIndex_before)` after `incSGDescTable(k)`, and
`s·bdStartIndex_before` only while `k = 0`). -/
theorem C3_blockRx_report (st : DMACtrl) (env : Nat → Nat) (p t fuel : Nat)
    (st' : DMACtrl) (w p' : Nat)
    (hch : st.channel = Channel.S2MM)
    (hsg : sgBit (env p) = true) (hpath : sgBlockPath st = true)
    (hn1 : 1 ≤ st.ndesc) (hn2 : st.ndesc ≤ 255) (hbd : st.bdStartIndex < st.ndesc)
    (hinv : st.bdStartIndex + st.lastIrqThreshold ≤ st.ndesc)
    (h : rx st env p t fuel = Res.done true st' w p') : C3Prop st st' := by
  have hc : st.channel ≠ Channel.UNKNOWN := by simp [hch]
  by_cases hbt : st.blockTransfer = true
  · rw [rx_eq_blockRx_resume st env p t fuel hc hsg hbt] at h
    exact blockRx_true st env (p + 1) t fuel st' w p' hn1 hn2 hbd hinv h
  · have hbt' : st.blockTransfer = false := by
      revert hbt
      cases st.blockTransfer <;> simp
    have hrest : st.bufferTransfer = false ∧ st.curWait = st.maxWait := by
      unfold sgBlockPath at hpath
      rw [hbt'] at hpath
      simpa using hpath
    rw [rx_eq_blockRx_fresh st env p t fuel hc hsg hbt' hrest.1 hrest.2] at h
    exact blockRx_true st env (p + 1) t fuel st' w p' hn1 hn2 hbd hinv h

set_option maxRecDepth 100000 in
/-- Witness instantiating `C3_blockRx_report` at the armed controller
`stRun4max` with an idle-reporting DMASR oracle. -/
theorem C3_blockRx_report_witness :
    (stRun4max.channel = Channel.S2MM ∧ sgBit 10 = true ∧
     sgBlockPath stRun4max = true ∧ 1 ≤ stRun4max.ndesc ∧ stRun4max.ndesc ≤ 255 ∧
     stRun4max.bdStartIndex < stRun4max.ndesc ∧
     stRun4max.bdStartIndex + stRun4max.lastIrqThreshold ≤ stRun4max.ndesc) ∧
    C3Prop stRun4max (resSt (rx stRun4max (fun _ => 10) 0 100 5)) :=
  ⟨⟨by decide, by decide, by decide, by decide, by decide, by decide, by decide⟩,
   C3_blockRx_report stRun4max (fun _ => 10) 0 100 5
     (resSt (rx stRun4max (fun _ => 10) 0 100 5))
     (resWait (rx stRun4max (fun _ => 10) 0 100 5))
     (resPos (rx stRun4max (fun _ => 10) 0 100 5))
     (by decide) (by decide) (by decide) (by decide) (by decide) (by decide) (by decide)
     rfl⟩

set_option maxRecDepth 100000 in
/-- Claim C9, counterexample: in the reachable state `cxC` (an idle
completion left `bdStartIndex = 2` with the threshold reloaded to 4), an
`rx(100)` call that observes IRQ threshold 2 — two descriptors of the next
cyclic lap done, `readyBlocks = 4 − 2 − 2 = 0` — returns false having
lowered `lastIrqThreshold` from 4 to 2, so the controller state is not
undisturbed on a timeout as the claim requires. -/
theorem C9_counterexample :
    resRet (rx cxC (fun _ => 131080) 0 100 5) = some false ∧
    cxC.lastIrqThreshold = 4 ∧
    (resSt (rx cxC (fun _ => 131080) 0 100 5)).lastIrqThreshold = 2 ∧
    (2 : Nat) ≠ 4 := by
  exact ⟨rfl, rfl, rfl, by decide⟩

/-- The timeout frame asserted by claim C9, with `lastIrqThreshold` allowed
to decrease. -/
def C9Prop (st : DMACtrl) (env : Nat → Nat) (p t fuel : Nat) : Prop :=
  ∀ st' w p', rx st env p t fuel = Res.done false st' w p' →
    st'.blockOffset = st.blockOffset ∧ st'.blockSize = st.blockSize ∧
    st'.bdStartIndex = st.bdStartIndex ∧ st'.bdStopIndex = st.bdStopIndex ∧
    st'.lastIrqThreshold ≤ st.lastIrqThreshold ∧ st'.curWait = st.curWait ∧
    t ≤ w ∧
    (sgBit (env p) = false → st' = st) ∧
    (sgBit (env p) = true → sgBlockPath st = true →
      st'.blockTransfer = true ∧ sgBlockPath st' = true) ∧
    (sgBit (env p) = true → sgBlockPath st = false →
      st'.bufferTransfer = true ∧ st'.blockTransfer = st.blockTransfer ∧
      sgBlockPath st' = false)

/-- Claim C9 (amended): for every `rx` call with nonzero timeout that
returns false, the accumulated sleep has reached at least the timeout
budget; `blockOffset`, `blockSize`, `bdStartIndex`, `bdStopIndex` and
`curWait` are unchanged from entry; `lastIrqThreshold` never increases but
may decrease on the block path, when a threshold drop yielding zero ready
blocks is observed; and the transfer flags are left so that a subsequent
`rx` resumes in the same sub-mode — untouched on the direct path,
`blockTransfer` raised on the block path, `bufferTransfer` raised (and
`blockTransfer` still clear) on the buffer path. -/
theorem C9_rx_timeout (st : DMACtrl) (env : Nat → Nat) (p t fuel : Nat)
    (ht : t ≠ 0)
    (hblk : sgBit (env p) = true → sgBlockPath st = true →
      1 ≤ st.ndesc ∧ st.ndesc ≤ 255 ∧ st.bdStartIndex < st.ndesc) :
    C9Prop st env p t fuel := by
  intro st' w p' h
  by_cases hc : st.channel = Channel.UNKNOWN
  · unfold rx at h
    rw [if_pos hc] at h
    exact absurd h (by simp)
  · by_cases hsg : sgBit (env p) = true
    · by_cases hpath : sgBlockPath st = true
      · obtain ⟨hn1, hn2, hbd⟩ := hblk hsg hpath
        have hdis : rx st env p t fuel = blockRx st env (p + 1) t fuel := by
          by_cases hbt : st.blockTransfer = true
          · exact rx_eq_blockRx_resume st env p t fuel hc hsg hbt
          · have hbt' : st.blockTransfer = false := by
              revert hbt
              cases st.blockTransfer <;> simp
            have hrest : st.bufferTransfer = false ∧ st.curWait = st.maxWait := by
              unfold sgBlockPath at hpath
              rw [hbt'] at hpath
              simpa using hpath
            exact rx_eq_blockRx_fresh st env p t fuel hc hsg hbt' hrest.1 hrest.2
        rw [hdis] at h
        have hres := blockRx_false st env (p + 1) t fuel st' w p' hn1 hn2 hbd h
        refine ⟨hres.1, hres.2.1, hres.2.2.1, hres.2.2.2.1, hres.2.2.2.2.2.1,
          hres.2.2.2.2.1, hres.2.2.2.2.2.2.2.2.2.2.2.2.2, ?_, ?_, ?_⟩
        · intro hx
          rw [hx] at hsg
          exact absurd hsg (by simp)
        · intro _ _
          refine ⟨hres.2.2.2.2.2.2.1, ?_⟩
          simp [sgBlockPath, hres.2.2.2.2.2.2.1]
        · intro _ hx
          rw [hx] at hpath
          exact absurd hpath (by simp)
      · have hpf : sgBlockPath st = false := by
          revert hpath
          cases sgBlockPath st <;> simp
        have hbt : st.blockTransfer = false := by
          unfold sgBlockPath at hpf
          revert hpf
          cases st.blockTransfer <;> simp
        have hdis : rx st env p t fuel = bufferRx st env (p + 1) t fuel := by
          by_cases hbuf : st.bufferTransfer = true
          · exact rx_eq_bufferRx_resume st env p t fuel hc hsg hbt hbuf
          · have hbuf' : st.bufferTransfer = false := by
              revert hbuf
              cases st.bufferTransfer <;> simp
            have hne : st.curWait ≠ st.maxWait := by
              intro he
              rw [show sgBlockPath st = true from by simp [sgBlockPath, hbt, hbuf', he]]
                at hpf
              exact absurd hpf (by simp)
            exact rx_eq_bufferRx_fresh st env p t fuel hc hsg hbt hbuf' hne
        rw [hdis] at h
        obtain ⟨hst, hw⟩ := bufferRx_false st env (p + 1) t fuel st' w p' h
        subst hst
        refine ⟨rfl, rfl, rfl, rfl, le_refl _, rfl, hw, ?_, ?_, ?_⟩
        · intro hx
          rw [hx] at hsg
          exact absurd hsg (by simp)
        · intro _ hx
          rw [hx] at hpf
          exact absurd hpf (by simp)
        · intro _ _
          exact ⟨rfl, rfl, by simp [sgBlockPath, hbt]⟩
    · have hsg' : sgBit (env p) = false := by
        revert hsg
        cases sgBit (env p) <;> simp
      rw [rx_eq_directRx st env p t fuel hc hsg'] at h
      obtain ⟨hst, hw⟩ := directRx_false st env (p + 1) t fuel st' w p' h
      subst hst
      refine ⟨rfl, rfl, rfl, rfl, le_refl _, rfl, hw, fun _ => rfl, ?_, ?_⟩
      · intro hx
        rw [hx] at hsg'
        exact absurd hsg' (by simp)
      · intro hx
        rw [hx] at hsg'
        exact absurd hsg' (by simp)

/-- Witness instantiating `C9_rx_timeout` at a direct-mode S2MM controller
polled with a never-idle DMASR oracle and a 100 µs timeout. -/
theorem C9_rx_timeout_witness :
    ((100 : Nat) ≠ 0 ∧
     (sgBit ((fun _ => (0 : Nat)) 0) = true →
       sgBlockPath (setChannel mkDMACtrl Channel.S2MM) = true →
       1 ≤ (setChannel mkDMACtrl Channel.S2MM).ndesc ∧
       (setChannel mkDMACtrl Channel.S2MM).ndesc ≤ 255 ∧
       (setChannel mkDMACtrl Channel.S2MM).bdStartIndex <
         (setChannel mkDMACtrl Channel.S2MM).ndesc)) ∧
    C9Prop (setChannel mkDMACtrl Channel.S2MM) (fun _ => 0) 0 100 3 :=
  ⟨⟨by decide, by decide⟩,
   C9_rx_timeout (setChannel mkDMACtrl Channel.S2MM) (fun _ => 0) 0 100 3
     (by decide) (by decide)⟩
